import Mathlib

/-!
Verification development for the GCodeProfiler repository.

The Python sources are shallowly embedded here:
  - stats.py (weighted_quantile, make_bins, bin_counts) over exact rationals;
  - gcode_parser.py (parse_gcode) over the reals, with the machine state of
    the single-pass loop made explicit and each physical line represented by
    the construct the line-recognition regexes extract from it;
  - the Z-alignment helpers of excel_writer.py (_interp_by_z and the common
    Z axis of the comparison block of write_xlsx) over exact rationals.

Python floats are modelled as exact rationals (for the pure numeric helpers)
or exact reals (for the parser, whose metrics involve pi and square roots).
-/

namespace GCodeProfiler

/-! ## stats.py -/

/-- Python math.isclose with the default tolerances rel_tol=1e-9, abs_tol=0.0:
abs(a-b) <= max(rel_tol * max(abs(a), abs(b)), abs_tol). -/
def isclose (a b : ℚ) : Prop :=
  |a - b| ≤ max ((1 / 1000000000) * max |a| |b|) 0

instance (a b : ℚ) : Decidable (isclose a b) := by
  unfold isclose; infer_instance

/-- Loop body of weighted_quantile: acc += w; if acc >= cutoff: return v;
falls off the end with none (the caller then returns the last value). -/
def wq_pick (cutoff : ℚ) : ℚ → List (ℚ × ℚ) → Option ℚ
  | _, [] => none
  | acc, (v, w) :: rest =>
      if acc + w ≥ cutoff then some v else wq_pick cutoff (acc + w) rest

/-- stats.weighted_quantile.  values entries and weights entries may be None;
a missing weights argument is None.  A raised ValueError is modelled as
Except.error; a returned None as Except.ok none. -/
def weighted_quantile (values : List (Option ℚ)) (weights : Option (List (Option ℚ)))
    (q : ℚ) : Except String (Option ℚ) :=
  if values = [] then .ok none
  else
    let ws := match weights with
      | none => (List.replicate values.length (some (1 : ℚ)))
      | some ws => ws
    if values.length ≠ ws.length then .error "values and weights must be same length"
    else
      let q' := max 0 (min 1 q)
      let pairs := (values.zip ws).filterMap (fun vw =>
        match vw with
        | (some v, some w) => if w > 0 then some (v, w) else none
        | _ => none)
      if pairs = [] then .ok none
      else
        let sorted := pairs.mergeSort (fun a b => decide (a.1 ≤ b.1))
        let total_w := (sorted.map Prod.snd).sum
        if total_w ≤ 0 then .ok none
        else
          let cutoff := q' * total_w
          match wq_pick cutoff 0 sorted with
          | some v => .ok (some v)
          | none => .ok ((sorted.getLast?).map Prod.fst)

/-- Loop of make_bins: for i in range(bins), emitting (lo, hi) with
hi = min_v + (i+1)*step except max_v on the last index; k counts the
remaining iterations, so i = bins - k. -/
def bins_loop (min_v max_v step : ℚ) (bins : ℕ) : ℕ → ℚ → List (ℚ × ℚ)
  | 0, _ => []
  | k + 1, lo =>
      let i := bins - (k + 1)
      let hi := if i < bins - 1 then min_v + ((i : ℚ) + 1) * step else max_v
      (lo, hi) :: bins_loop min_v max_v step bins k hi

/-- stats.make_bins. -/
def make_bins (min_v max_v : ℚ) (bins : ℤ) : List (ℚ × ℚ) :=
  let bins := if bins < 1 then 1 else bins
  let p := if max_v < min_v then (max_v, min_v) else (min_v, max_v)
  let min_v := p.1
  let max_v := p.2
  if isclose max_v min_v then [(min_v, max_v)]
  else
    let step := (max_v - min_v) / (bins : ℚ)
    bins_loop min_v max_v step bins.toNat bins.toNat min_v

/-- Placement loop of bin_counts: first index i with lo <= v < hi
(last bin closed: lo <= v <= hi); n is the total number of bins. -/
def bin_find (n : ℕ) (v : ℚ) : ℕ → List (ℚ × ℚ) → Option ℕ
  | _, [] => none
  | i, (lo, hi) :: rest =>
      if i < n - 1 then
        if lo ≤ v ∧ v < hi then some i else bin_find n v (i + 1) rest
      else
        if lo ≤ v ∧ v ≤ hi then some i else bin_find n v (i + 1) rest

/-- Index where bin_counts places a value v (bins_spec nonempty): the bin
found by the scan, else clamped to the first or last bin. -/
def bin_index (bins_spec : List (ℚ × ℚ)) (v : ℚ) : ℕ :=
  match bin_find bins_spec.length v 0 bins_spec with
  | some i => i
  | none =>
      if v < ((bins_spec.head?.map Prod.fst).getD 0) then 0 else bins_spec.length - 1

/-- counts[i] += 1. -/
def incr : List ℕ → ℕ → List ℕ
  | [], _ => []
  | c :: rest, 0 => (c + 1) :: rest
  | c :: rest, n + 1 => c :: incr rest n

/-- stats.bin_counts: one count per bin; None values are skipped; a value in
no bin is clamped to the first bin (below range) or the last bin. -/
def bin_counts (values : List (Option ℚ)) (bins_spec : List (ℚ × ℚ)) : List ℕ :=
  if bins_spec = [] then List.replicate bins_spec.length 0
  else
    values.foldl (fun counts v =>
      match v with
      | none => counts
      | some v => incr counts (bin_index bins_spec v))
      (List.replicate bins_spec.length 0)

/-! ## excel_writer.py: Z-alignment of two runs -/

/-- Row produced by the per-layer series builder _layer_stats_series of
write_xlsx: a dict with keys z, layer, time_s, peak_flow, p95_flow,
peak_speed, p95_speed (each possibly None). -/
structure Row where
  z : Option ℚ
  layer : Option ℤ
  time_s : Option ℚ
  peak_flow : Option ℚ
  p95_flow : Option ℚ
  peak_speed : Option ℚ
  p95_speed : Option ℚ
deriving DecidableEq

/-- bisect.bisect_left on a sorted list, written as the equivalent linear
scan: the number of leading elements strictly below z. -/
def bisect_left (z : ℚ) : List ℚ → ℕ
  | [] => 0
  | a :: rest => if a < z then bisect_left z rest + 1 else 0

/-- Interpolation of one numeric key between rows r0 and r1 at parameter t:
(1-t)*v0 + t*v1, None if either endpoint is None. -/
def interp_key (t : ℚ) : Option ℚ → Option ℚ → Option ℚ
  | some v0, some v1 => some ((1 - t) * v0 + t * v1)
  | _, _ => none

/-- excel_writer._interp_by_z: linear interpolation of a per-layer series
over Z.  Returns None when there are no rows with a Z, or when z_query lies
outside the range spanned by the first and last row Z (the rows this is
called on are sorted ascending by Z, so those are min and max).  The two
unreachable index lookups of the source (guarded by the idx bounds checks)
are modelled with Option-indexing falling back to none. -/
def interp_by_z (rows : List Row) (z_query : ℚ) : Option Row :=
  let pts := rows.filterMap (fun r => r.z.map (fun z => (z, r)))
  match pts with
  | [] => none
  | p :: ps =>
    let pts := p :: ps
    let zs := pts.map Prod.fst
    if z_query < p.1 ∨ zs.getLastD p.1 < z_query then none
    else
      match pts.find? (fun q => decide (q.1 = z_query)) with
      | some q => some q.2
      | none =>
        let idx := bisect_left z_query zs
        if idx = 0 then some p.2
        else if idx ≥ pts.length then some ((pts.getLastD p).2)
        else
          match pts[idx - 1]?, pts[idx]? with
          | some (z0, r0), some (z1, r1) =>
            if z1 = z0 then some r1
            else
              let t := (z_query - z0) / (z1 - z0)
              some
                { z := some z_query
                  layer := if z_query - z0 ≤ z1 - z_query then r0.layer else r1.layer
                  time_s := interp_key t r0.time_s r1.time_s
                  peak_flow := interp_key t r0.peak_flow r1.peak_flow
                  p95_flow := interp_key t r0.p95_flow r1.p95_flow
                  peak_speed := interp_key t r0.peak_speed r1.peak_speed
                  p95_speed := interp_key t r0.p95_speed r1.p95_speed }
          | _, _ => none

/-- Common Z axis of write_xlsx: z_common = sorted(set(zA) | set(zB)). -/
def z_common (zA zB : List ℚ) : List ℚ :=
  ((zA ++ zB).dedup).mergeSort (fun a b => decide (a ≤ b))

/-- Z values present in a series of rows (those rows whose z is not None). -/
def rowZs (rows : List Row) : List ℚ :=
  rows.filterMap Row.z

/-! ## gcode_parser.py

Each physical input line is represented by the construct the line-recognition
regular expressions of parse_gcode extract from it, in the precedence order of
the source (first match wins, one construct per line):
  - typeComment s  : a line matched by re_type, s the stripped group;
  - layerComment n : a line matched by re_layer (digits only, so a natural);
  - zComment z     : a line matched by re_z whose group parses as a float
                     (a line whose group raises ValueError is skipped by the
                     source exactly like an unmatched line, so it is
                     represented by other);
  - m82 / m83      : extrusion-mode lines;
  - m106 s         : a fan-on line, s the optional S integer (digits only);
  - m107           : a fan-off line;
  - m104m109 / m140m190 / m141 : temperature lines, carrying the optional
                     S float (none when absent or malformed);
  - move cmd params: a line matched by re_g0g1; params are the (letter,
                     signed float) pairs found by re_param, in order;
  - other          : any line that matches nothing (silently ignored).
-/

/-- Axis letters recognized by re_param on a motion line. -/
inductive Axis | X | Y | Z | E | F | S
deriving DecidableEq

/-- Command kind of a motion line (group 1 of re_g0g1). -/
inductive Cmd | G0 | G1
deriving DecidableEq

/-- One physical input line, as classified by parse_gcode. -/
inductive GLine
  | typeComment (s : String)
  | layerComment (n : ℕ)
  | zComment (z : ℝ)
  | m82
  | m83
  | m106 (s : Option ℕ)
  | m107
  | m104m109 (s : Option ℝ)
  | m140m190 (s : Option ℝ)
  | m141 (s : Option ℝ)
  | move (cmd : Cmd) (params : List (Axis × ℝ))
  | other

/-- One emitted move record (the dict appended to moves). -/
structure Move where
  layer : ℕ
  z : ℝ
  type : String
  cmd : Cmd
  x0 : ℝ
  y0 : ℝ
  z0 : ℝ
  x1 : ℝ
  y1 : ℝ
  z1 : ℝ
  dist_mm : ℝ
  de_mm : ℝ
  speed_mm_s : Option ℝ
  time_s : ℝ
  flow_mm3_s : ℝ
  fan_pct : Option ℝ
  hotend_C : Option ℝ
  bed_C : Option ℝ
  chamber_C : Option ℝ

/-- The machine state of the parsing loop, together with the accumulated
outputs (moves, layer_z_map), which the loop also threads along. -/
structure PState where
  x : ℝ
  y : ℝ
  z : ℝ
  e : ℝ
  feed_mm_min : Option ℝ
  e_relative : Bool
  current_layer : ℕ
  current_type : String
  saw_layer_tag : Bool
  last_layer_z_comment : Option ℝ
  hotend_set : Option ℝ
  bed_set : Option ℝ
  chamber_set : Option ℝ
  fan_s_0_255 : Option ℕ
  layer_z_map : ℕ → Option ℝ
  moves : List Move

/-- State at the top of parse_gcode, before any line is consumed. -/
def initState : PState where
  x := 0
  y := 0
  z := 0
  e := 0
  feed_mm_min := none
  e_relative := true
  current_layer := 0
  current_type := "UNKNOWN"
  saw_layer_tag := false
  last_layer_z_comment := none
  hotend_set := none
  bed_set := none
  chamber_set := none
  fan_s_0_255 := none
  layer_z_map := fun _ => none
  moves := []

/-- filament_area_mm2 of stats.py / gcode_parser.py: pi * r * r with
r = d/2. -/
noncomputable def filament_area_mm2 (d_mm : ℝ) : ℝ :=
  Real.pi * (d_mm / 2) * (d_mm / 2)

/-- Lookup of params[k]: the dict comprehension keeps the LAST pair with a
given letter. -/
def getParam (params : List (Axis × ℝ)) (a : Axis) : Option ℝ :=
  ((params.filter (fun p => decide (p.1 = a))).getLast?).map Prod.snd

/-- Feed rate in effect after a motion line: params F when present, else the
previous feed_mm_min. -/
def newFeed (st : PState) (params : List (Axis × ℝ)) : Option ℝ :=
  match getParam params Axis.F with
  | some f => some f
  | none => st.feed_mm_min

/-- Cumulative extruder position after a motion line (the ne of the source). -/
def newE (st : PState) (params : List (Axis × ℝ)) : ℝ :=
  match getParam params Axis.E with
  | some e_cmd => if st.e_relative then st.e + e_cmd else e_cmd
  | none => st.e

/-- The move record a motion line emits from state st.  Python truthiness is
spelled out: a None or 0.0 feed is falsy, so both the time and the speed
guards test the value against 0 as well as comparing with 0. -/
noncomputable def moveRecord (area : ℝ) (st : PState) (cmd : Cmd)
    (params : List (Axis × ℝ)) : Move :=
  let nx := (getParam params Axis.X).getD st.x
  let ny := (getParam params Axis.Y).getD st.y
  let nz := (getParam params Axis.Z).getD st.z
  let feed_mm_s : Option ℝ :=
    match newFeed st params with
    | some f => if f ≠ 0 ∧ f > 0 then some (f / 60) else none
    | none => none
  let de : ℝ :=
    match getParam params Axis.E with
    | some e_cmd => if st.e_relative then e_cmd else e_cmd - st.e
    | none => 0
  let dx := nx - st.x
  let dy := ny - st.y
  let dz := nz - st.z
  let dist := Real.sqrt (dx * dx + dy * dy + dz * dz)
  let t_s : ℝ :=
    match feed_mm_s with
    | some fs => if fs ≠ 0 ∧ dist > 0 then dist / fs else 0
    | none => 0
  let speed : Option ℝ :=
    match feed_mm_s with
    | some fs => if fs ≠ 0 then some fs else none
    | none => none
  let flow : ℝ := if t_s > 0 ∧ de > 0 then de * area / t_s else 0
  let fan_pct : Option ℝ := st.fan_s_0_255.map (fun s => (s : ℝ) / 255 * 100)
  { layer := st.current_layer
    z := nz
    type := st.current_type
    cmd := cmd
    x0 := st.x
    y0 := st.y
    z0 := st.z
    x1 := nx
    y1 := ny
    z1 := nz
    dist_mm := dist
    de_mm := de
    speed_mm_s := speed
    time_s := t_s
    flow_mm3_s := flow
    fan_pct := fan_pct
    hotend_C := st.hotend_set
    bed_C := st.bed_set
    chamber_C := st.chamber_set }

/-- Effect of a motion line: append the emitted move and advance
x, y, z, e and feed_mm_min. -/
noncomputable def stepMove (area : ℝ) (st : PState) (cmd : Cmd)
    (params : List (Axis × ℝ)) : PState :=
  let m := moveRecord area st cmd params
  { st with
    x := m.x1
    y := m.y1
    z := m.z1
    e := newE st params
    feed_mm_min := newFeed st params
    moves := st.moves ++ [m] }

/-- One iteration of the parsing loop of parse_gcode on one classified
line. -/
noncomputable def stepLine (area : ℝ) (st : PState) : GLine → PState
  | .typeComment s => { st with current_type := s }
  | .layerComment n => { st with saw_layer_tag := true, current_layer := n }
  | .zComment zc =>
      let st' :=
        if st.saw_layer_tag then st
        else
          let cur : ℕ :=
            match st.last_layer_z_comment with
            | none => 0
            | some last => if zc > last + 1 / 1000000 then st.current_layer + 1
                           else st.current_layer
          { st with current_layer := cur, last_layer_z_comment := some zc }
      { st' with
        layer_z_map := fun k =>
          if k = st'.current_layer then some zc else st'.layer_z_map k }
  | .m82 => { st with e_relative := false }
  | .m83 => { st with e_relative := true }
  | .m106 s =>
      match s with
      | some n => { st with fan_s_0_255 := some n }
      | none => st
  | .m107 => { st with fan_s_0_255 := some 0 }
  | .m104m109 s =>
      match s with
      | some v => { st with hotend_set := some v }
      | none => st
  | .m140m190 s =>
      match s with
      | some v => { st with bed_set := some v }
      | none => st
  | .m141 s =>
      match s with
      | some v => { st with chamber_set := some v }
      | none => st
  | .move cmd params => stepMove area st cmd params
  | .other => st

/-- gcode_parser.parse_gcode: fold the loop over the classified lines and
return (moves, layer_z_map). -/
noncomputable def parse_gcode (lines : List GLine) (filament_diameter_mm : ℝ) :
    List Move × (ℕ → Option ℝ) :=
  let area := filament_area_mm2 filament_diameter_mm
  let final := lines.foldl (stepLine area) initState
  (final.moves, final.layer_z_map)

/-- Does a classified line emit a move record? -/
def isMoveLine : GLine → Bool
  | .move _ _ => true
  | _ => false

/-! ## Concrete inputs and their expected outputs, used by the claims -/

/-- Single-move trace used by several witnesses: the one line G1 X10 F1200. -/
noncomputable def wlines : List GLine := [.move .G1 [(.X, 10), (.F, 1200)]]

/-- The move that parsing wlines emits: 10 mm at 1200 mm/min, no extrusion. -/
noncomputable def wM : Move :=
  ⟨0, 0, "UNKNOWN", .G1, 0, 0, 0, 10, 0, 0, 10, 0, some 20, 1 / 2, 0, none, none, none, none⟩

/-- The five-line end-to-end trace of the spec: M83, the comment Z:0.2, the
comment TYPE:Perimeter, G1 X0 Y0 F6000, G1 X10 Y0 E1.0 F1200. -/
noncomputable def c1lines : List GLine :=
  [.m83, .zComment 0.2, .typeComment "Perimeter",
   .move .G1 [(.X, 0), (.Y, 0), (.F, 6000)],
   .move .G1 [(.X, 10), (.Y, 0), (.E, 1), (.F, 1200)]]

/-- Filament cross-section area for the 1.75 mm diameter of the scenario. -/
noncomputable def c1area : ℝ := filament_area_mm2 1.75

/-- State of the end-to-end trace after the Z comment. -/
noncomputable def c1s2 : PState :=
  { initState with
    last_layer_z_comment := some 0.2
    layer_z_map := fun k => if k = 0 then some 0.2 else none }

/-- State of the end-to-end trace after the TYPE comment. -/
noncomputable def c1s3 : PState :=
  { initState with
    current_type := "Perimeter"
    last_layer_z_comment := some 0.2
    layer_z_map := fun k => if k = 0 then some 0.2 else none }

/-- First emitted move of the end-to-end trace: G1 X0 Y0 F6000 moves nowhere
but still appends a record (zero distance, zero time, speed 100 mm/s). -/
noncomputable def c1m1 : Move :=
  ⟨0, 0, "Perimeter", .G1, 0, 0, 0, 0, 0, 0, 0, 0, some 100, 0, 0, none, none, none, none⟩

/-- State of the end-to-end trace after the first motion line. -/
noncomputable def c1s4 : PState :=
  { c1s3 with feed_mm_min := some 6000, moves := [c1m1] }

/-- Second emitted move of the end-to-end trace: the extruding 10 mm move. -/
noncomputable def c1m2 : Move :=
  ⟨0, 0, "Perimeter", .G1, 0, 0, 0, 10, 0, 0, 10, 1, some 20, 0.5,
   1 * (Real.pi * 0.875 ^ 2) / 0.5, none, none, none, none⟩

/-- Final state of the end-to-end trace. -/
noncomputable def c1s5 : PState :=
  { c1s4 with x := 10, e := 1, feed_mm_min := some 1200, moves := [c1m1, c1m2] }

/-- Two-Z-comment trace of the layer-inference scenario. -/
noncomputable def c2lines : List GLine := [.zComment 0.2, .zComment 0.4]

/-- State after the first Z comment of the layer-inference scenario. -/
noncomputable def c2s1 : PState :=
  { initState with
    last_layer_z_comment := some 0.2
    layer_z_map := fun k => if k = 0 then some 0.2 else none }

/-- State after the second Z comment of the layer-inference scenario. -/
noncomputable def c2s2 : PState :=
  { initState with
    current_layer := 1
    last_layer_z_comment := some 0.4
    layer_z_map := fun k => if k = 1 then some 0.4 else if k = 0 then some 0.2 else none }

/-- Move emitted after a fan line M106 S510: duty 510 of 255 gives a fan
percentage of 200, above the documented 0 to 100 range. -/
noncomputable def c9M : Move :=
  ⟨0, 0, "UNKNOWN", .G1, 0, 0, 0, 0, 0, 0, 0, 0, none, 0, 0, some 200, none, none, none⟩

/-- Move emitted after a fan line M106 S204: fan percentage 80. -/
noncomputable def c9wM : Move :=
  ⟨0, 0, "UNKNOWN", .G1, 0, 0, 0, 0, 0, 0, 0, 0, none, 0, 0, some 80, none, none, none⟩

/-- Move emitted by the one line G1 F0: an F parameter is present, yet the
speed field is None because a zero feed is falsy in the source. -/
noncomputable def c5M : Move :=
  ⟨0, 0, "UNKNOWN", .G1, 0, 0, 0, 0, 0, 0, 0, 0, none, 0, 0, none, none, none, none⟩

/-- One-row series used by the alignment witness. -/
def wRow : Row := ⟨some 1, none, none, none, none, none, none⟩

/-- Positional continuity between two consecutive move records: the later
record starts where the earlier one ended. -/
def contig (m1 m2 : Move) : Prop :=
  m2.x0 = m1.x1 ∧ m2.y0 = m1.y1 ∧ m2.z0 = m1.z1

/-- Invariant of the parsing loop behind the continuity claim: the emitted
moves chain up, the last one ends at the current position, an empty move
list means the position is still the origin, and the first move starts at
the origin. -/
def PosInv (st : PState) : Prop :=
  List.Chain' contig st.moves ∧
  (∀ m, st.moves.getLast? = some m → m.x1 = st.x ∧ m.y1 = st.y ∧ m.z1 = st.z) ∧
  (st.moves = [] → st.x = 0 ∧ st.y = 0 ∧ st.z = 0) ∧
  (∀ m, st.moves.head? = some m → m.x0 = 0 ∧ m.y0 = 0 ∧ m.z0 = 0)

/-! ## Helper lemmas: statistics module -/

lemma getLast?_cons_ne_nil {α : Type} (a : α) (l : List α) (h : l ≠ []) :
    (a :: l).getLast? = l.getLast? := by
  cases l with
  | nil => exact absurd rfl h
  | cons b t => exact List.getLast?_cons_cons

lemma bins_loop_length (m M s : ℚ) (b : ℕ) :
    ∀ (k : ℕ) (lo : ℚ), (bins_loop m M s b k lo).length = k := by
  intro k
  induction k with
  | zero => intro lo; rfl
  | succ k ih => intro lo; simp [bins_loop, ih]

lemma bins_loop_ne_nil (m M s : ℚ) (b : ℕ) (k : ℕ) (lo : ℚ) (h : 0 < k) :
    bins_loop m M s b k lo ≠ [] := by
  intro hcon
  have := bins_loop_length m M s b k lo
  rw [hcon] at this
  simp at this
  omega

lemma bins_loop_head (m M s : ℚ) (b : ℕ) (k : ℕ) (lo : ℚ) (h : 0 < k) :
    (bins_loop m M s b k lo).head?.map Prod.fst = some lo := by
  cases k with
  | zero => omega
  | succ k => rfl

lemma bins_loop_last (m M s : ℚ) (b : ℕ) :
    ∀ (k : ℕ) (lo : ℚ), 0 < k → k ≤ b →
      ((bins_loop m M s b k lo).getLast?).map Prod.snd = some M := by
  intro k
  induction k with
  | zero => intro lo h; omega
  | succ k ih =>
      intro lo _ hkb
      cases k with
      | zero =>
          rw [bins_loop]
          rw [if_neg (by omega : ¬ (b - (0 + 1) < b - 1))]
          rfl
      | succ k' =>
          rw [bins_loop]
          rw [getLast?_cons_ne_nil _ _ (bins_loop_ne_nil m M s b (k' + 1) _ (by omega))]
          exact ih _ (by omega) (by omega)

lemma bins_loop_chain (m M s : ℚ) (b : ℕ) :
    ∀ (k : ℕ) (lo : ℚ), List.Chain' (fun p q => q.1 = p.2) (bins_loop m M s b k lo) := by
  intro k
  induction k with
  | zero => intro lo; simp [bins_loop]
  | succ k ih =>
      intro lo
      rw [bins_loop]
      rw [List.chain'_cons']
      constructor
      · intro q hq
        cases k with
        | zero => simp [bins_loop] at hq
        | succ k' =>
            rw [bins_loop] at hq
            simp only [List.head?_cons, Option.mem_def, Option.some_inj] at hq
            rw [← hq]
      · exact ih _

lemma make_bins_isclose (lo hi : ℚ) (n : ℤ) (hlt : lo < hi) (hc : isclose hi lo) :
    make_bins lo hi n = [(lo, hi)] := by
  unfold make_bins
  rw [if_neg (not_lt.mpr (le_of_lt hlt))]
  dsimp only
  rw [if_pos hc]

lemma make_bins_spec (lo hi : ℚ) (n : ℤ) (hn : 1 ≤ n) (hlt : lo < hi) (hnc : ¬ isclose hi lo) :
    (make_bins lo hi n).length = n.toNat ∧
    ((make_bins lo hi n).head?).map Prod.fst = some lo ∧
    ((make_bins lo hi n).getLast?).map Prod.snd = some hi ∧
    List.Chain' (fun p q => q.1 = p.2) (make_bins lo hi n) := by
  unfold make_bins
  rw [if_neg (by omega : ¬ n < 1)]
  rw [if_neg (not_lt.mpr (le_of_lt hlt))]
  dsimp only
  rw [if_neg hnc]
  refine ⟨bins_loop_length _ _ _ _ _ _, ?_, ?_, bins_loop_chain _ _ _ _ _ _⟩
  · exact bins_loop_head _ _ _ _ _ _ (by omega)
  · exact bins_loop_last _ _ _ _ _ _ (by omega) (le_refl _)

lemma make_bins_ne_nil (lo hi : ℚ) (n : ℤ) : make_bins lo hi n ≠ [] := by
  unfold make_bins
  dsimp only
  split <;> split
  · simp
  · apply bins_loop_ne_nil
    split <;> omega
  · simp
  · apply bins_loop_ne_nil
    split <;> omega

lemma incr_sum : ∀ (counts : List ℕ) (i : ℕ), i < counts.length →
    (incr counts i).sum = counts.sum + 1 := by
  intro counts
  induction counts with
  | nil => intro i h; simp at h
  | cons c rest ih =>
      intro i h
      cases i with
      | zero => simp [incr]; omega
      | succ j =>
          simp only [incr, List.sum_cons]
          rw [ih j (by simpa using Nat.lt_of_succ_lt_succ h)]
          omega

lemma incr_length : ∀ (counts : List ℕ) (i : ℕ), (incr counts i).length = counts.length := by
  intro counts
  induction counts with
  | nil => intro i; rfl
  | cons c rest ih =>
      intro i
      cases i with
      | zero => rfl
      | succ j => simp [incr, ih]

lemma bin_find_lt (v : ℚ) (n : ℕ) :
    ∀ (l : List (ℚ × ℚ)) (i j : ℕ), bin_find n v i l = some j → j < i + l.length := by
  intro l
  induction l with
  | nil => intro i j h; simp [bin_find] at h
  | cons p rest ih =>
      intro i j h
      rcases p with ⟨lo, hi⟩
      rw [bin_find] at h
      split at h
      · split at h
        · simp only [Option.some_inj] at h; subst h; simp
        · have := ih (i + 1) j h
          simp at this ⊢
          omega
      · split at h
        · simp only [Option.some_inj] at h; subst h; simp
        · have := ih (i + 1) j h
          simp at this ⊢
          omega

lemma bin_index_lt (bins_spec : List (ℚ × ℚ)) (v : ℚ) (h : bins_spec ≠ []) :
    bin_index bins_spec v < bins_spec.length := by
  unfold bin_index
  cases hf : bin_find bins_spec.length v 0 bins_spec with
  | some j =>
      dsimp only
      have := bin_find_lt v bins_spec.length bins_spec 0 j hf
      simpa using this
  | none =>
      dsimp only
      have hpos : 0 < bins_spec.length := List.length_pos.mpr h
      split <;> omega

lemma bin_counts_sum (values : List ℚ) (bins_spec : List (ℚ × ℚ)) (h : bins_spec ≠ []) :
    (bin_counts (values.map some) bins_spec).sum = values.length := by
  unfold bin_counts
  rw [if_neg h]
  suffices hgen : ∀ (vs : List ℚ) (counts : List ℕ), counts.length = bins_spec.length →
      ((vs.map some).foldl (fun counts v =>
        match v with
        | none => counts
        | some v => incr counts (bin_index bins_spec v)) counts).sum = counts.sum + vs.length by
    rw [hgen values (List.replicate bins_spec.length 0) (by simp)]
    simp
  intro vs
  induction vs with
  | nil => intro counts _; simp
  | cons v rest ih =>
      intro counts hlen
      simp only [List.map_cons, List.foldl_cons]
      rw [ih _ (by rw [incr_length]; exact hlen)]
      rw [incr_sum _ _ (by rw [hlen]; exact bin_index_lt bins_spec v h)]
      simp
      omega

lemma weighted_quantile_empty (w : Option (List (Option ℚ))) (q : ℚ) :
    weighted_quantile [] w q = .ok none := by
  simp [weighted_quantile]

lemma weighted_quantile_mismatch (vs : List (Option ℚ)) (ws : List (Option ℚ)) (q : ℚ)
    (hne : vs ≠ []) (hlen : vs.length ≠ ws.length) :
    weighted_quantile vs (some ws) q = .error "values and weights must be same length" := by
  unfold weighted_quantile
  rw [if_neg hne]
  dsimp only
  rw [if_pos hlen]

/-! ## Helper lemmas: alignment -/

lemma rowZs_eq (rows : List Row) :
    (rows.filterMap (fun r => r.z.map (fun z => (z, r)))).map Prod.fst = rowZs rows := by
  induction rows with
  | nil => rfl
  | cons r rest ih =>
      cases hz : r.z with
      | none => simp [rowZs, List.filterMap_cons, hz] at ih ⊢; exact ih
      | some z => simp [rowZs, List.filterMap_cons, hz] at ih ⊢; exact ih

lemma z_common_sorted (zA zB : List ℚ) : List.Sorted (· < ·) (z_common zA zB) := by
  have hs : List.Sorted (· ≤ ·) (z_common zA zB) := List.sorted_mergeSort' _
  have hn : (z_common zA zB).Nodup :=
    (List.mergeSort_perm ((zA ++ zB).dedup) _).symm.nodup (List.nodup_dedup _)
  exact hs.lt_of_le hn

lemma interp_out_of_range (rows : List Row) (z : ℚ)
    (h : (∀ z' ∈ rowZs rows, z < z') ∨ (∀ z' ∈ rowZs rows, z' < z)) :
    interp_by_z rows z = none := by
  unfold interp_by_z
  cases hp : rows.filterMap (fun r => r.z.map (fun z => (z, r))) with
  | nil => simp [hp]
  | cons p ps =>
      simp only [hp]
      have hmem : p.1 ∈ rowZs rows := by
        rw [← rowZs_eq]
        exact List.mem_map_of_mem Prod.fst (hp ▸ List.mem_cons_self _ _)
      have hlastmem : ((p :: ps).map Prod.fst).getLastD p.1 ∈ rowZs rows := by
        rw [← rowZs_eq, hp]
        simp only [List.map_cons]
        exact List.mem_of_mem_getLast? rfl
      have hcond : z < p.1 ∨ ((p :: ps).map Prod.fst).getLastD p.1 < z := by
        rcases h with hlo | hhi
        · exact Or.inl (hlo _ hmem)
        · exact Or.inr (hhi _ hlastmem)
      rw [if_pos ?_]
      simp only [List.map_cons] at hcond
      exact hcond

/-! ## Helper lemmas: parser, generic -/

lemma stepLine_moves_nonmove (area : ℝ) (st : PState) (l : GLine)
    (h : isMoveLine l = false) : (stepLine area st l).moves = st.moves := by
  cases l with
  | typeComment s => rfl
  | layerComment n => rfl
  | zComment z =>
      simp only [stepLine]
      split <;> rfl
  | m82 => rfl
  | m83 => rfl
  | m106 s => cases s <;> rfl
  | m107 => rfl
  | m104m109 s => cases s <;> rfl
  | m140m190 s => cases s <;> rfl
  | m141 s => cases s <;> rfl
  | move cmd params => simp [isMoveLine] at h
  | other => rfl

lemma stepLine_moves_move (area : ℝ) (st : PState) (cmd : Cmd) (params : List (Axis × ℝ)) :
    (stepLine area st (.move cmd params)).moves
      = st.moves ++ [moveRecord area st cmd params] := rfl

lemma foldl_moves_mem {P : Move → Prop}
    (hP : ∀ (area : ℝ) (st : PState) (cmd : Cmd) (params : List (Axis × ℝ)),
      P (moveRecord area st cmd params)) (area : ℝ) :
    ∀ (lines : List GLine) (st : PState),
      (∀ m ∈ st.moves, P m) → ∀ m ∈ (lines.foldl (stepLine area) st).moves, P m := by
  intro lines
  induction lines with
  | nil => intro st h; simpa using h
  | cons l rest ih =>
      intro st h
      simp only [List.foldl]
      apply ih
      cases hl : isMoveLine l with
      | false => rw [stepLine_moves_nonmove area st l hl]; exact h
      | true =>
          cases l with
          | move cmd params =>
              rw [stepLine_moves_move]
              intro m hm
              rcases List.mem_append.mp hm with h1 | h2
              · exact h m h1
              · rw [List.mem_singleton.mp h2]; exact hP area st cmd params
          | typeComment s => simp [isMoveLine] at hl
          | layerComment n => simp [isMoveLine] at hl
          | zComment z => simp [isMoveLine] at hl
          | m82 => simp [isMoveLine] at hl
          | m83 => simp [isMoveLine] at hl
          | m106 s => simp [isMoveLine] at hl
          | m107 => simp [isMoveLine] at hl
          | m104m109 s => simp [isMoveLine] at hl
          | m140m190 s => simp [isMoveLine] at hl
          | m141 s => simp [isMoveLine] at hl
          | other => simp [isMoveLine] at hl

lemma foldl_moves_length (area : ℝ) :
    ∀ (lines : List GLine) (st : PState),
      ((lines.foldl (stepLine area) st).moves).length
        = st.moves.length + lines.countP isMoveLine := by
  intro lines
  induction lines with
  | nil => intro st; simp
  | cons l rest ih =>
      intro st
      simp only [List.foldl]
      rw [ih]
      cases hl : isMoveLine l with
      | false =>
          rw [stepLine_moves_nonmove area st l hl]
          simp [List.countP_cons, hl]
      | true =>
          cases l with
          | move cmd params =>
              rw [stepLine_moves_move]
              simp [List.countP_cons, isMoveLine]
              omega
          | typeComment s => simp [isMoveLine] at hl
          | layerComment n => simp [isMoveLine] at hl
          | zComment z => simp [isMoveLine] at hl
          | m82 => simp [isMoveLine] at hl
          | m83 => simp [isMoveLine] at hl
          | m106 s => simp [isMoveLine] at hl
          | m107 => simp [isMoveLine] at hl
          | m104m109 s => simp [isMoveLine] at hl
          | m140m190 s => simp [isMoveLine] at hl
          | m141 s => simp [isMoveLine] at hl
          | other => simp [isMoveLine] at hl

lemma moveRecord_dist_nonneg (area : ℝ) (st : PState) (cmd : Cmd)
    (params : List (Axis × ℝ)) : 0 ≤ (moveRecord area st cmd params).dist_mm := by
  simp only [moveRecord]
  exact Real.sqrt_nonneg _

lemma moveRecord_time_flow (area : ℝ) (st : PState) (cmd : Cmd) (params : List (Axis × ℝ)) :
    (∀ s, (moveRecord area st cmd params).speed_mm_s = some s →
      (moveRecord area st cmd params).time_s = (moveRecord area st cmd params).dist_mm / s) ∧
    ((moveRecord area st cmd params).de_mm ≤ 0 →
      (moveRecord area st cmd params).flow_mm3_s = 0) := by
  have hd : 0 ≤ (moveRecord area st cmd params).dist_mm :=
    moveRecord_dist_nonneg area st cmd params
  simp only [moveRecord] at hd ⊢
  constructor
  · intro s hs
    cases hf : newFeed st params with
    | none => simp [hf] at hs
    | some f =>
        simp only [hf] at hs ⊢
        by_cases hpos : f ≠ 0 ∧ f > 0
        · rw [if_pos hpos] at hs ⊢
          dsimp only at hs ⊢
          have hfs : f / 60 ≠ 0 := by
            rcases hpos with ⟨_, hgt⟩
            positivity
          rw [if_pos hfs] at hs
          have hs' : s = f / 60 := by exact (Option.some_inj.mp hs).symm
          subst hs'
          by_cases hdist : Real.sqrt (((getParam params Axis.X).getD st.x - st.x) * ((getParam params Axis.X).getD st.x - st.x) + ((getParam params Axis.Y).getD st.y - st.y) * ((getParam params Axis.Y).getD st.y - st.y) + ((getParam params Axis.Z).getD st.z - st.z) * ((getParam params Axis.Z).getD st.z - st.z)) > 0
          · rw [if_pos ⟨hfs, hdist⟩]
          · rw [if_neg (by tauto)]
            have : Real.sqrt (((getParam params Axis.X).getD st.x - st.x) * ((getParam params Axis.X).getD st.x - st.x) + ((getParam params Axis.Y).getD st.y - st.y) * ((getParam params Axis.Y).getD st.y - st.y) + ((getParam params Axis.Z).getD st.z - st.z) * ((getParam params Axis.Z).getD st.z - st.z)) = 0 :=
              le_antisymm (not_lt.mp hdist) (Real.sqrt_nonneg _)
            rw [this, zero_div]
        · rw [if_neg hpos] at hs
          dsimp only at hs
          simp at hs
  · intro hde
    apply if_neg
    rintro ⟨_, hgt⟩
    exact absurd hde (not_le.mpr hgt)

lemma moveRecord_fan (area : ℝ) (st : PState) (cmd : Cmd) (params : List (Axis × ℝ)) :
    (moveRecord area st cmd params).fan_pct
      = st.fan_s_0_255.map (fun s => (s : ℝ) / 255 * 100) := rfl

lemma stepLine_fan (area : ℝ) (st : PState) (l : GLine)
    (h : ∀ n, l ≠ .m106 (some n)) (h7 : l ≠ .m107) :
    (stepLine area st l).fan_s_0_255 = st.fan_s_0_255 := by
  cases l with
  | typeComment s => rfl
  | layerComment n => rfl
  | zComment z => simp only [stepLine]; split <;> rfl
  | m82 => rfl
  | m83 => rfl
  | m106 s =>
      cases s with
      | none => rfl
      | some n => exact absurd rfl (h n)
  | m107 => exact absurd rfl h7
  | m104m109 s => cases s <;> rfl
  | m140m190 s => cases s <;> rfl
  | m141 s => cases s <;> rfl
  | move cmd params => rfl
  | other => rfl

lemma fan_fold (area : ℝ) (P : ℕ → Prop) (hP0 : P 0) :
    ∀ (lines : List GLine) (st : PState),
      (∀ s, GLine.m106 (some s) ∈ lines → P s) →
      (st.fan_s_0_255 = none ∨ ∃ s, st.fan_s_0_255 = some s ∧ P s) →
      (∀ m ∈ st.moves, m.fan_pct = none ∨
        ∃ s, P s ∧ m.fan_pct = some ((s : ℝ) / 255 * 100)) →
      ((lines.foldl (stepLine area) st).fan_s_0_255 = none ∨
        ∃ s, (lines.foldl (stepLine area) st).fan_s_0_255 = some s ∧ P s) ∧
      (∀ m ∈ (lines.foldl (stepLine area) st).moves,
        m.fan_pct = none ∨ ∃ s, P s ∧ m.fan_pct = some ((s : ℝ) / 255 * 100)) := by
  intro lines
  induction lines with
  | nil =>
      intro st _ hfan hmoves
      exact ⟨hfan, hmoves⟩
  | cons l rest ih =>
      intro st hmem hfan hmoves
      simp only [List.foldl]
      have hmem' : ∀ s, GLine.m106 (some s) ∈ rest → P s := by
        intro s hs; exact hmem s (List.mem_cons_of_mem l hs)
      apply ih _ hmem'
      · cases l with
        | m106 s =>
            cases s with
            | none => exact hfan
            | some n =>
                right
                exact ⟨n, rfl, hmem n (List.mem_cons_self _ _)⟩
        | m107 => right; exact ⟨0, rfl, hP0⟩
        | typeComment s => exact hfan
        | layerComment n => exact hfan
        | zComment z =>
            rw [stepLine_fan area st _ (by intro n h; cases h) (by intro h; cases h)]
            exact hfan
        | m82 => exact hfan
        | m83 => exact hfan
        | m104m109 s => cases s <;> exact hfan
        | m140m190 s => cases s <;> exact hfan
        | m141 s => cases s <;> exact hfan
        | move cmd params => exact hfan
        | other => exact hfan
      · cases hl : isMoveLine l with
        | false =>
            rw [stepLine_moves_nonmove area st l hl]
            exact hmoves
        | true =>
            cases l with
            | move cmd params =>
                rw [stepLine_moves_move]
                intro m hm
                rcases List.mem_append.mp hm with h1 | h2
                · exact hmoves m h1
                · rw [List.mem_singleton.mp h2, moveRecord_fan]
                  rcases hfan with hnone | ⟨s, hsome, hPs⟩
                  · left; rw [hnone]; rfl
                  · right; exact ⟨s, hPs, by rw [hsome]; rfl⟩
            | typeComment s => simp [isMoveLine] at hl
            | layerComment n => simp [isMoveLine] at hl
            | zComment z => simp [isMoveLine] at hl
            | m82 => simp [isMoveLine] at hl
            | m83 => simp [isMoveLine] at hl
            | m106 s => simp [isMoveLine] at hl
            | m107 => simp [isMoveLine] at hl
            | m104m109 s => simp [isMoveLine] at hl
            | m140m190 s => simp [isMoveLine] at hl
            | m141 s => simp [isMoveLine] at hl
            | other => simp [isMoveLine] at hl

lemma stepLine_pos_nonmove (area : ℝ) (st : PState) (l : GLine)
    (h : isMoveLine l = false) :
    (stepLine area st l).x = st.x ∧ (stepLine area st l).y = st.y ∧
      (stepLine area st l).z = st.z := by
  cases l with
  | typeComment s => exact ⟨rfl, rfl, rfl⟩
  | layerComment n => exact ⟨rfl, rfl, rfl⟩
  | zComment z =>
      simp only [stepLine]
      split <;> exact ⟨rfl, rfl, rfl⟩
  | m82 => exact ⟨rfl, rfl, rfl⟩
  | m83 => exact ⟨rfl, rfl, rfl⟩
  | m106 s => cases s <;> exact ⟨rfl, rfl, rfl⟩
  | m107 => exact ⟨rfl, rfl, rfl⟩
  | m104m109 s => cases s <;> exact ⟨rfl, rfl, rfl⟩
  | m140m190 s => cases s <;> exact ⟨rfl, rfl, rfl⟩
  | m141 s => cases s <;> exact ⟨rfl, rfl, rfl⟩
  | move cmd params => simp [isMoveLine] at h
  | other => exact ⟨rfl, rfl, rfl⟩

lemma moveRecord_start (area : ℝ) (st : PState) (cmd : Cmd) (params : List (Axis × ℝ)) :
    (moveRecord area st cmd params).x0 = st.x ∧
    (moveRecord area st cmd params).y0 = st.y ∧
    (moveRecord area st cmd params).z0 = st.z := ⟨rfl, rfl, rfl⟩

lemma posInv_step (area : ℝ) (st : PState) (l : GLine) (h : PosInv st) :
    PosInv (stepLine area st l) := by
  obtain ⟨hchain, hlast, hempty, hhead⟩ := h
  cases hl : isMoveLine l with
  | false =>
      obtain ⟨hx, hy, hz⟩ := stepLine_pos_nonmove area st l hl
      have hm := stepLine_moves_nonmove area st l hl
      refine ⟨?_, ?_, ?_, ?_⟩
      · rw [hm]; exact hchain
      · intro m hml; rw [hm] at hml; rw [hx, hy, hz]; exact hlast m hml
      · intro hnil; rw [hm] at hnil; rw [hx, hy, hz]; exact hempty hnil
      · intro m hml; rw [hm] at hml; exact hhead m hml
  | true =>
      cases l with
      | move cmd params =>
          have hmoves : (stepLine area st (.move cmd params)).moves
              = st.moves ++ [moveRecord area st cmd params] := rfl
          obtain ⟨hs0x, hs0y, hs0z⟩ := moveRecord_start area st cmd params
          refine ⟨?_, ?_, ?_, ?_⟩
          · rw [hmoves]
            rw [List.chain'_append]
            refine ⟨hchain, List.chain'_singleton _, ?_⟩
            intro x hx y hy
            rw [List.head?_cons, Option.mem_def, Option.some_inj] at hy
            subst hy
            obtain ⟨h1, h2, h3⟩ := hlast x (Option.mem_def.mp hx)
            exact ⟨by rw [hs0x, h1], by rw [hs0y, h2], by rw [hs0z, h3]⟩
          · intro m hml
            rw [hmoves, List.getLast?_append] at hml
            simp only [List.getLast?_singleton] at hml
            dsimp only [Option.or] at hml
            rw [Option.some_inj] at hml
            subst hml
            exact ⟨rfl, rfl, rfl⟩
          · intro hnil
            rw [hmoves] at hnil
            exact absurd hnil (by simp)
          · intro m hml
            rw [hmoves] at hml
            cases hcase : st.moves with
            | nil =>
                rw [hcase] at hml
                simp only [List.nil_append, List.head?_cons, Option.some_inj] at hml
                subst hml
                obtain ⟨ex, ey, ez⟩ := hempty hcase
                exact ⟨by rw [hs0x, ex], by rw [hs0y, ey], by rw [hs0z, ez]⟩
            | cons a as =>
                rw [hcase] at hml
                simp only [List.cons_append, List.head?_cons, Option.some_inj] at hml
                subst hml
                exact hhead a (by rw [hcase]; rfl)
      | typeComment s => simp [isMoveLine] at hl
      | layerComment n => simp [isMoveLine] at hl
      | zComment z => simp [isMoveLine] at hl
      | m82 => simp [isMoveLine] at hl
      | m83 => simp [isMoveLine] at hl
      | m106 s => simp [isMoveLine] at hl
      | m107 => simp [isMoveLine] at hl
      | m104m109 s => simp [isMoveLine] at hl
      | m140m190 s => simp [isMoveLine] at hl
      | m141 s => simp [isMoveLine] at hl
      | other => simp [isMoveLine] at hl

lemma posInv_foldl (area : ℝ) :
    ∀ (lines : List GLine) (st : PState), PosInv st →
      PosInv (lines.foldl (stepLine area) st) := by
  intro lines
  induction lines with
  | nil => intro st h; exact h
  | cons l rest ih =>
      intro st h
      exact ih _ (posInv_step area st l h)

lemma moveRecord_speed (area : ℝ) (st : PState) (cmd : Cmd) (params : List (Axis × ℝ)) :
    ((moveRecord area st cmd params).speed_mm_s = none ↔
      ∀ f, newFeed st params = some f → f ≤ 0) ∧
    (∀ f, newFeed st params = some f → 0 < f →
      (moveRecord area st cmd params).speed_mm_s = some (f / 60)) := by
  simp only [moveRecord]
  cases hf : newFeed st params with
  | none =>
      dsimp only
      constructor
      · constructor
        · intro _ f h; simp at h
        · intro _; rfl
      · intro f h; simp at h
  | some f =>
      dsimp only
      constructor
      · by_cases hpos : f ≠ 0 ∧ f > 0
        · rw [if_pos hpos]
          dsimp only
          rw [if_pos (by rcases hpos with ⟨_, h⟩; positivity)]
          constructor
          · intro h; simp at h
          · intro h
            have := h f rfl
            rcases hpos with ⟨_, h2⟩
            linarith
        · rw [if_neg hpos]
          dsimp only
          constructor
          · intro _ g hg
            rw [Option.some_inj.mp hg] at hpos
            by_contra hgt
            exact hpos ⟨by push_neg at hgt; positivity, by push_neg at hgt; exact hgt⟩
          · intro _; rfl
      · intro g hg hgpos
        rw [Option.some_inj.mp hg]
        rw [if_pos ⟨by positivity, by positivity⟩]
        dsimp only
        rw [if_pos (by positivity)]

lemma zstep_inference (area : ℝ) (st : PState) (zc : ℝ) (hsaw : st.saw_layer_tag = false) :
    ((st.last_layer_z_comment = none → (stepLine area st (.zComment zc)).current_layer = 0) ∧
     (∀ last, st.last_layer_z_comment = some last → zc > last + 1 / 1000000 →
       (stepLine area st (.zComment zc)).current_layer = st.current_layer + 1) ∧
     (∀ last, st.last_layer_z_comment = some last → zc ≤ last + 1 / 1000000 →
       (stepLine area st (.zComment zc)).current_layer = st.current_layer) ∧
     (stepLine area st (.zComment zc)).layer_z_map
       ((stepLine area st (.zComment zc)).current_layer) = some zc) := by
  simp only [stepLine, hsaw, Bool.false_eq_true, if_false]
  refine ⟨?_, ?_, ?_, ?_⟩
  · intro hnone
    simp only [hnone]
  · intro last hlast hgt
    simp only [hlast]
    rw [if_pos hgt]
  · intro last hlast hle
    simp only [hlast]
    rw [if_neg (not_lt.mpr hle)]
  · simp

/-! ## Helper lemmas: concrete evaluations -/

lemma sqrt100 : Real.sqrt 100 = 10 := by
  rw [show (100 : ℝ) = 10 ^ 2 by norm_num]
  exact Real.sqrt_sq (by norm_num)

lemma wmove_eval :
    moveRecord (filament_area_mm2 1) initState .G1 [(.X, 10), (.F, 1200)] = wM := by
  have hX : getParam [(Axis.X, (10:ℝ)), (Axis.F, 1200)] Axis.X = some 10 := rfl
  have hY : getParam [(Axis.X, (10:ℝ)), (Axis.F, 1200)] Axis.Y = none := rfl
  have hZ : getParam [(Axis.X, (10:ℝ)), (Axis.F, 1200)] Axis.Z = none := rfl
  have hE : getParam [(Axis.X, (10:ℝ)), (Axis.F, 1200)] Axis.E = none := rfl
  have hF : newFeed initState [(Axis.X, (10:ℝ)), (Axis.F, 1200)] = some 1200 := rfl
  simp only [moveRecord, hX, hY, hZ, hE, hF, Option.getD_some, Option.getD_none]
  norm_num [initState, wM, Move.mk.injEq, sqrt100]

lemma wparse : (parse_gcode wlines 1).1 = [wM] := by
  unfold parse_gcode wlines
  simp only [List.foldl, stepLine, stepMove, wmove_eval]
  simp [initState]

lemma c1s3_eval :
    stepLine c1area c1s2 (.typeComment "Perimeter") = c1s3 := by
  simp only [stepLine, c1s3, c1s2, initState]

lemma c1m1_eval :
    moveRecord c1area c1s3 .G1 [(.X, 0), (.Y, 0), (.F, 6000)] = c1m1 := by
  have hX : getParam [(Axis.X, (0:ℝ)), (Axis.Y, 0), (Axis.F, 6000)] Axis.X = some 0 := rfl
  have hY : getParam [(Axis.X, (0:ℝ)), (Axis.Y, 0), (Axis.F, 6000)] Axis.Y = some 0 := rfl
  have hZ : getParam [(Axis.X, (0:ℝ)), (Axis.Y, 0), (Axis.F, 6000)] Axis.Z = none := rfl
  have hE : getParam [(Axis.X, (0:ℝ)), (Axis.Y, 0), (Axis.F, 6000)] Axis.E = none := rfl
  have hF : newFeed c1s3 [(Axis.X, (0:ℝ)), (Axis.Y, 0), (Axis.F, 6000)] = some 6000 := rfl
  simp only [moveRecord, hX, hY, hZ, hE, hF, Option.getD_some, Option.getD_none]
  norm_num [c1s3, initState, c1m1, Move.mk.injEq]

lemma c1s4_eval :
    stepLine c1area c1s3 (.move .G1 [(.X, 0), (.Y, 0), (.F, 6000)]) = c1s4 := by
  have hF : newFeed c1s3 [(Axis.X, (0:ℝ)), (Axis.Y, 0), (Axis.F, 6000)] = some 6000 := rfl
  have hE : newE c1s3 [(Axis.X, (0:ℝ)), (Axis.Y, 0), (Axis.F, 6000)] = c1s3.e := rfl
  simp only [stepLine, stepMove, c1m1_eval, hF, hE]
  norm_num [c1s4, c1m1, c1s3, initState]

lemma c1m2_eval :
    moveRecord c1area c1s4 .G1 [(.X, 10), (.Y, 0), (.E, 1), (.F, 1200)] = c1m2 := by
  have hX : getParam [(Axis.X, (10:ℝ)), (Axis.Y, 0), (Axis.E, 1), (Axis.F, 1200)] Axis.X = some 10 := rfl
  have hY : getParam [(Axis.X, (10:ℝ)), (Axis.Y, 0), (Axis.E, 1), (Axis.F, 1200)] Axis.Y = some 0 := rfl
  have hZ : getParam [(Axis.X, (10:ℝ)), (Axis.Y, 0), (Axis.E, 1), (Axis.F, 1200)] Axis.Z = none := rfl
  have hE : getParam [(Axis.X, (10:ℝ)), (Axis.Y, 0), (Axis.E, 1), (Axis.F, 1200)] Axis.E = some 1 := rfl
  have hF : newFeed c1s4 [(Axis.X, (10:ℝ)), (Axis.Y, 0), (Axis.E, 1), (Axis.F, 1200)] = some 1200 := rfl
  simp only [moveRecord, hX, hY, hZ, hE, hF, Option.getD_some, Option.getD_none]
  norm_num [c1s4, c1s3, initState, c1m2, Move.mk.injEq, sqrt100, c1area, filament_area_mm2]
  ring

lemma c1s5_eval :
    stepLine c1area c1s4 (.move .G1 [(.X, 10), (.Y, 0), (.E, 1), (.F, 1200)]) = c1s5 := by
  have hF : newFeed c1s4 [(Axis.X, (10:ℝ)), (Axis.Y, 0), (Axis.E, 1), (Axis.F, 1200)] = some 1200 := rfl
  have hE : newE c1s4 [(Axis.X, (10:ℝ)), (Axis.Y, 0), (Axis.E, 1), (Axis.F, 1200)] = c1s4.e + 1 := rfl
  simp only [stepLine, stepMove, c1m2_eval, hF, hE]
  norm_num [c1s5, c1s4, c1s3, initState, c1m1, c1m2]

lemma c1parse :
    parse_gcode c1lines 1.75
      = ([c1m1, c1m2], fun k => if k = 0 then some 0.2 else none) := by
  unfold parse_gcode c1lines
  have ha : filament_area_mm2 1.75 = c1area := rfl
  have h1 : stepLine c1area initState .m83 = initState := by
    simp [stepLine, initState]
  have h2 : stepLine c1area initState (.zComment 0.2) = c1s2 := by
    simp only [stepLine, c1s2, initState]; norm_num
  simp only [List.foldl, ha, h1, h2, c1s3_eval, c1s4_eval, c1s5_eval]
  simp [c1s5, c1s4, c1s3, initState]

lemma c2parse :
    (parse_gcode c2lines 1.75).2 =
      fun k => if k = 0 then some 0.2 else if k = 1 then some 0.4 else none := by
  unfold parse_gcode c2lines
  have h1 : stepLine (filament_area_mm2 1.75) initState (.zComment 0.2) = c2s1 := by
    simp only [stepLine, c2s1, initState]; norm_num
  have h2 : stepLine (filament_area_mm2 1.75) c2s1 (.zComment 0.4) = c2s2 := by
    simp only [stepLine, c2s1, c2s2, initState]
    norm_num
  simp only [List.foldl]
  rw [h1, h2]
  funext k
  rcases k with _ | _ | k <;> simp [c2s2, initState]

lemma c5parse :
    (parse_gcode [.move .G1 [(.F, 0)]] 1.75).1 = [c5M] := by
  unfold parse_gcode
  simp only [List.foldl]
  have hX : getParam [(Axis.F, (0:ℝ))] Axis.X = none := rfl
  have hY : getParam [(Axis.F, (0:ℝ))] Axis.Y = none := rfl
  have hZ : getParam [(Axis.F, (0:ℝ))] Axis.Z = none := rfl
  have hE : getParam [(Axis.F, (0:ℝ))] Axis.E = none := rfl
  have hF : newFeed initState [(Axis.F, (0:ℝ))] = some 0 := rfl
  simp only [stepLine, stepMove, moveRecord, hX, hY, hZ, hE, hF,
    Option.getD_some, Option.getD_none]
  norm_num [initState, c5M, Move.mk.injEq]

lemma c9parse :
    (parse_gcode [.m106 (some 510), .move .G1 []] 1.75).1 = [c9M] := by
  unfold parse_gcode
  simp only [List.foldl]
  have h1 : stepLine (filament_area_mm2 1.75) initState (.m106 (some 510))
      = { initState with fan_s_0_255 := some 510 } := rfl
  rw [h1]
  have hX : getParam ([] : List (Axis × ℝ)) Axis.X = none := rfl
  have hY : getParam ([] : List (Axis × ℝ)) Axis.Y = none := rfl
  have hZ : getParam ([] : List (Axis × ℝ)) Axis.Z = none := rfl
  have hE : getParam ([] : List (Axis × ℝ)) Axis.E = none := rfl
  have hF : newFeed { initState with fan_s_0_255 := some 510 } ([] : List (Axis × ℝ)) = none := rfl
  simp only [stepLine, stepMove, moveRecord, hX, hY, hZ, hE, hF,
    Option.getD_some, Option.getD_none]
  norm_num [initState, c9M, Move.mk.injEq]

lemma c9wparse :
    (parse_gcode [.m106 (some 204), .move .G1 []] 1.75).1 = [c9wM] := by
  unfold parse_gcode
  simp only [List.foldl]
  have h1 : stepLine (filament_area_mm2 1.75) initState (.m106 (some 204))
      = { initState with fan_s_0_255 := some 204 } := rfl
  rw [h1]
  have hX : getParam ([] : List (Axis × ℝ)) Axis.X = none := rfl
  have hY : getParam ([] : List (Axis × ℝ)) Axis.Y = none := rfl
  have hZ : getParam ([] : List (Axis × ℝ)) Axis.Z = none := rfl
  have hE : getParam ([] : List (Axis × ℝ)) Axis.E = none := rfl
  have hF : newFeed { initState with fan_s_0_255 := some 204 } ([] : List (Axis × ℝ)) = none := rfl
  simp only [stepLine, stepMove, moveRecord, hX, hY, hZ, hE, hF,
    Option.getD_some, Option.getD_none]
  norm_num [initState, c9wM, Move.mk.injEq]

/-! ## Claims -/

/-- Claim C1, counterexample: parsing the five-line trace M83, Z:0.2,
TYPE:Perimeter, G1 X0 Y0 F6000, G1 X10 Y0 E1.0 F1200 with filament diameter
1.75 mm emits TWO move records, not exactly one as claimed: the source
appends a record for every motion line, including the zero-distance
G1 X0 Y0 F6000. -/
theorem C1_counterexample :
    (parse_gcode c1lines 1.75).1.length = 2 ∧
    (parse_gcode c1lines 1.75).1.length ≠ 1 := by
  rw [c1parse]
  simp

/-- Claim C1, amended: the five-line end-to-end trace produces exactly two
move records; the first is the zero-distance positioning move (dist 0, de 0,
time 0), and the second has de_mm = 1, dist_mm = 10, time_s = 0.5,
speed_mm_s = 20 and flow_mm3_s = (1 times pi times 0.875 squared) / 0.5. -/
theorem C1_end_to_end :
    (parse_gcode c1lines 1.75).1 = [c1m1, c1m2] ∧
    c1m2.de_mm = 1 ∧ c1m2.dist_mm = 10 ∧ c1m2.time_s = 0.5 ∧
    c1m2.speed_mm_s = some 20 ∧
    c1m2.flow_mm3_s = 1 * (Real.pi * 0.875 ^ 2) / 0.5 ∧
    c1m1.dist_mm = 0 ∧ c1m1.de_mm = 0 ∧ c1m1.time_s = 0 :=
  ⟨by rw [c1parse], rfl, rfl, rfl, rfl, rfl, rfl, rfl, rfl⟩

/-- Claim C2: while no explicit layer tag has been seen, a Z comment drives
layer inference: with no previous Z comment the layer becomes 0; a Z value
above the previous one by more than 1e-6 increments the layer; otherwise the
layer is unchanged; and the layer-Z map records the Z at the (new) current
layer.  Concretely, the two-comment trace Z:0.2 then Z:0.4 with no layer
tags yields the map 0 to 0.2 and 1 to 0.4. -/
theorem C2_layer_inference :
    (∀ (area : ℝ) (st : PState) (zc : ℝ), st.saw_layer_tag = false →
      ((st.last_layer_z_comment = none →
         (stepLine area st (.zComment zc)).current_layer = 0) ∧
       (∀ last, st.last_layer_z_comment = some last → zc > last + 1 / 1000000 →
         (stepLine area st (.zComment zc)).current_layer = st.current_layer + 1) ∧
       (∀ last, st.last_layer_z_comment = some last → zc ≤ last + 1 / 1000000 →
         (stepLine area st (.zComment zc)).current_layer = st.current_layer) ∧
       (stepLine area st (.zComment zc)).layer_z_map
         ((stepLine area st (.zComment zc)).current_layer) = some zc)) ∧
    (parse_gcode c2lines 1.75).2 =
      (fun k => if k = 0 then some 0.2 else if k = 1 then some 0.4 else none) :=
  ⟨zstep_inference, c2parse⟩

/-- Claim C2, witness: on the initial state (no layer tag seen, no previous
Z comment) a Z comment makes the current layer 0. -/
theorem C2_layer_inference_witness :
    initState.saw_layer_tag = false ∧
    (stepLine 1 initState (GLine.zComment 0.2)).current_layer = 0 :=
  ⟨rfl, (C2_layer_inference.1 1 initState 0.2 rfl).1 rfl⟩

/-- Claim C3: every emitted move with a non-null speed has
time_s = dist_mm / speed (with time 0 when the distance is 0, which the
equality also covers), and every emitted move with de_mm at most 0 has flow
0. -/
theorem C3_time_flow (lines : List GLine) (d : ℝ) (m : Move)
    (hm : m ∈ (parse_gcode lines d).1) :
    (∀ s, m.speed_mm_s = some s → m.time_s = m.dist_mm / s) ∧
    (m.de_mm ≤ 0 → m.flow_mm3_s = 0) := by
  have h := foldl_moves_mem
    (P := fun m => (∀ s, m.speed_mm_s = some s → m.time_s = m.dist_mm / s) ∧
      (m.de_mm ≤ 0 → m.flow_mm3_s = 0))
    (fun area st cmd params => moveRecord_time_flow area st cmd params)
    (filament_area_mm2 d) lines initState (by intro m hm; simp [initState] at hm)
  exact h m hm

/-- Claim C3, witness: the single move of the trace G1 X10 F1200 has speed
20 mm/s, time = dist / 20, and zero flow from its zero extruder delta. -/
theorem C3_time_flow_witness :
    wM ∈ (parse_gcode wlines 1).1 ∧ wM.speed_mm_s = some 20 ∧
    wM.time_s = wM.dist_mm / 20 ∧ wM.de_mm ≤ 0 ∧ wM.flow_mm3_s = 0 := by
  have hm : wM ∈ (parse_gcode wlines 1).1 := by
    rw [wparse]; exact List.mem_singleton.mpr rfl
  refine ⟨hm, rfl, (C3_time_flow wlines 1 wM hm).1 20 rfl, by norm_num [wM],
    (C3_time_flow wlines 1 wM hm).2 (by norm_num [wM])⟩

/-- Claim C4: the common Z axis of the comparison block is the sorted union
of the Z values of the two aligned runs, hence strictly increasing; and the
interpolation helper yields None at any query Z below all of a series Z
values or above all of them, so nothing is ever extrapolated outside a runs
observed Z range. -/
theorem C4_z_alignment :
    (∀ zA zB : List ℚ, List.Sorted (· < ·) (z_common zA zB)) ∧
    (∀ (rows : List Row) (z : ℚ),
      ((∀ z' ∈ rowZs rows, z < z') ∨ (∀ z' ∈ rowZs rows, z' < z)) →
      interp_by_z rows z = none) :=
  ⟨z_common_sorted, interp_out_of_range⟩

/-- Claim C4, witness: the union axis of the runs with layer heights 0.2 and
0.32 is strictly increasing, and a query above the whole one-row series is
undefined. -/
theorem C4_z_alignment_witness :
    List.Sorted (· < ·) (z_common [1/5, 2/5] [8/25, 16/25]) ∧
    interp_by_z [wRow] 2 = none := by
  constructor
  · exact C4_z_alignment.1 [1/5, 2/5] [8/25, 16/25]
  · apply C4_z_alignment.2
    right
    intro z' hz'
    simp [rowZs, wRow] at hz'
    rw [hz']
    norm_num

/-- Claim C5, counterexample: on the one-line trace G1 F0 an F parameter is
present (the feed rate is known, namely 0), yet the emitted move has a None
speed, because a zero feed is falsy in the source; the claim would require
speed = 0 / 60 = some 0 here. -/
theorem C5_counterexample :
    (parse_gcode [.move .G1 [(.F, 0)]] 1.75).1 = [c5M] ∧
    getParam [(Axis.F, (0:ℝ))] Axis.F = some 0 ∧
    c5M.speed_mm_s = none :=
  ⟨c5parse, rfl, rfl⟩

/-- Claim C5, amended: the speed of an emitted move is None exactly when the
feed rate in effect is unknown or non-positive (a zero or negative F also
yields None), and equals f / 60 whenever the effective feed f is positive. -/
theorem C5_speed_null_iff (area : ℝ) (st : PState) (cmd : Cmd)
    (params : List (Axis × ℝ)) :
    ((moveRecord area st cmd params).speed_mm_s = none ↔
      ∀ f, newFeed st params = some f → f ≤ 0) ∧
    (∀ f, newFeed st params = some f → 0 < f →
      (moveRecord area st cmd params).speed_mm_s = some (f / 60)) :=
  moveRecord_speed area st cmd params

/-- Claim C5, witness: with F60 in effect the emitted move has speed 60/60. -/
theorem C5_speed_witness :
    newFeed initState [(Axis.F, (60:ℝ))] = some 60 ∧
    (moveRecord 1 initState Cmd.G1 [(Axis.F, 60)]).speed_mm_s = some (60 / 60) :=
  ⟨rfl, (C5_speed_null_iff 1 initState Cmd.G1 [(Axis.F, 60)]).2 60 rfl (by norm_num)⟩

/-- Claim C6, counterexample: for lo = 1e9 and hi = lo + 1e-4 we have
lo < hi and n = 2 at least 1, yet make_bins returns a single interval, not
n: the relative tolerance of math.isclose collapses the range. -/
theorem C6_counterexample :
    (1000000000 : ℚ) < 1000000000 + 1 / 10000 ∧ (1 : ℤ) ≤ 2 ∧
    (make_bins 1000000000 (1000000000 + 1 / 10000) 2).length ≠ 2 := by
  refine ⟨by norm_num, by norm_num, ?_⟩
  have hc : isclose (1000000000 + 1 / 10000) 1000000000 := by
    unfold isclose
    rw [abs_of_nonneg (by norm_num), abs_of_nonneg (by norm_num),
      abs_of_nonneg (by norm_num)]
    rw [max_eq_left (by norm_num), max_eq_left (by norm_num)]
    norm_num
  rw [make_bins_isclose _ _ 2 (by norm_num) hc]
  simp

/-- Claim C6, amended: for lo < hi that are not within the isclose
tolerance, make_bins returns exactly n contiguous intervals whose first
lower bound is lo, whose last upper bound is hi, and whose adjacent bounds
chain; for lo < hi within tolerance a single interval (lo, hi) is returned
whatever n; and for every list of values all lying within [lo, hi], the
bin_counts over those values sum to the length of the list. -/
theorem C6_bins_properties :
    (∀ (lo hi : ℚ) (n : ℤ), 1 ≤ n → lo < hi → ¬ isclose hi lo →
      (make_bins lo hi n).length = n.toNat ∧
      ((make_bins lo hi n).head?).map Prod.fst = some lo ∧
      ((make_bins lo hi n).getLast?).map Prod.snd = some hi ∧
      List.Chain' (fun p q => q.1 = p.2) (make_bins lo hi n)) ∧
    (∀ (lo hi : ℚ) (n : ℤ), lo < hi → isclose hi lo →
      make_bins lo hi n = [(lo, hi)]) ∧
    (∀ (lo hi : ℚ) (n : ℤ) (values : List ℚ), 1 ≤ n → lo < hi →
      (∀ v ∈ values, lo ≤ v ∧ v ≤ hi) →
      (bin_counts (values.map some) (make_bins lo hi n)).sum = values.length) :=
  ⟨make_bins_spec, make_bins_isclose,
   fun lo hi n values _ _ _ =>
     bin_counts_sum values (make_bins lo hi n) (make_bins_ne_nil lo hi n)⟩

/-- Claim C6, witness: make_bins 0 10 5 has five intervals and the counts of
the in-range values 1, 2 sum to 2. -/
theorem C6_bins_witness :
    ¬ isclose 10 0 ∧
    (make_bins 0 10 5).length = (5 : ℤ).toNat ∧
    (bin_counts (([1, 2] : List ℚ).map some) (make_bins 0 10 5)).sum
      = ([1, 2] : List ℚ).length := by
  have hnc : ¬ isclose 10 0 := by
    unfold isclose
    intro hcon
    rw [abs_of_nonneg (by norm_num), abs_of_nonneg (by norm_num),
      abs_of_nonneg (by norm_num)] at hcon
    rw [max_eq_left (by norm_num), max_eq_left (by norm_num)] at hcon
    norm_num at hcon
  refine ⟨hnc, (C6_bins_properties.1 0 10 5 (by norm_num) (by norm_num) hnc).1,
    C6_bins_properties.2.2 0 10 5 [1, 2] (by norm_num) (by norm_num) ?_⟩
  intro v hv
  rcases List.mem_cons.mp hv with h | h
  · rw [h]; norm_num
  · rcases List.mem_cons.mp h with h2 | h2
    · rw [h2]; norm_num
    · simp at h2

/-- Claim C7, counterexample: with empty values and weights of length 1 the
lengths mismatch, yet weighted_quantile returns None instead of raising: the
empty-input early return precedes the length check. -/
theorem C7_counterexample :
    weighted_quantile [] (some [some 1]) (1 / 2) = .ok none ∧
    ([] : List (Option ℚ)).length ≠ [some (1 : ℚ)].length :=
  ⟨rfl, by simp⟩

/-- Claim C7, amended: weighted_quantile returns None for empty values
(whatever the weights), and raises the length-mismatch error whenever the
values are non-empty and the lengths differ. -/
theorem C7_quantile_errors :
    (∀ (w : Option (List (Option ℚ))) (q : ℚ),
      weighted_quantile [] w q = .ok none) ∧
    (∀ (vs ws : List (Option ℚ)) (q : ℚ), vs ≠ [] → vs.length ≠ ws.length →
      weighted_quantile vs (some ws) q
        = .error "values and weights must be same length") :=
  ⟨weighted_quantile_empty, weighted_quantile_mismatch⟩

/-- Claim C7, witness: empty values give None; one value against empty
weights raises. -/
theorem C7_quantile_witness :
    weighted_quantile [] none 0 = .ok none ∧
    weighted_quantile [some 0] (some []) 0
      = .error "values and weights must be same length" :=
  ⟨C7_quantile_errors.1 none 0,
   C7_quantile_errors.2 [some 0] [] 0 (by simp) (by simp)⟩

/-- Claim C8, counterexample: a non-positive filament diameter is not
rejected anywhere; with diameter 0 the parse of the one-move trace still
produces a (non-empty) move sequence instead of failing. -/
theorem C8_counterexample :
    (0 : ℝ) ≤ 0 ∧ (parse_gcode wlines 0).1.length = 1 ∧
    (parse_gcode wlines 0).1 ≠ [] := by
  have hlen : (parse_gcode wlines 0).1.length = 1 := by
    show ((wlines.foldl (stepLine (filament_area_mm2 0)) initState).moves).length = 1
    rw [foldl_moves_length]
    simp [wlines, initState, isMoveLine]
  exact ⟨le_refl 0, hlen, List.ne_nil_of_length_pos (by rw [hlen]; norm_num)⟩

/-- Claim C8, amended: no diameter validation exists; for any non-positive
diameter the parse still emits exactly one move record per motion line (the
diameter only enters the flow metric through the area pi (d/2) squared). -/
theorem C8_no_diameter_validation (lines : List GLine) (d : ℝ) (hd : d ≤ 0) :
    (parse_gcode lines d).1.length = lines.countP isMoveLine := by
  show ((lines.foldl (stepLine (filament_area_mm2 d)) initState).moves).length = _
  rw [foldl_moves_length]
  simp [initState]

/-- Claim C8, witness: with diameter 0 the one-move trace parses to as many
moves as it has motion lines. -/
theorem C8_witness :
    (0 : ℝ) ≤ 0 ∧ (parse_gcode wlines 0).1.length = wlines.countP isMoveLine :=
  ⟨le_refl 0, C8_no_diameter_validation wlines 0 (le_refl 0)⟩

/-- Claim C9, counterexample: a fan line M106 S510 is stored unclamped, so
the following move has fan_pct = 510/255*100 = 200, outside the 0 to 100
range the claim asserts. -/
theorem C9_counterexample :
    (parse_gcode [.m106 (some 510), .move .G1 []] 1.75).1 = [c9M] ∧
    c9M.fan_pct = some 200 ∧ ¬ ((200 : ℝ) ≤ 100) :=
  ⟨c9parse, rfl, by norm_num⟩

/-- Claim C9, amended: every emitted move has fan_pct None or equal to
s/255*100 for some fan value s that is 0 or appears in a fan line of the
trace (hence fan_pct is never negative); and whenever every fan line S value
of the trace is at most 255, every non-null fan_pct lies in 0 to 100. -/
theorem C9_fan_pct_range (lines : List GLine) (d : ℝ) :
    (∀ m ∈ (parse_gcode lines d).1,
      m.fan_pct = none ∨ ∃ s : ℕ, (s = 0 ∨ GLine.m106 (some s) ∈ lines) ∧
        m.fan_pct = some ((s : ℝ) / 255 * 100)) ∧
    ((∀ s : ℕ, GLine.m106 (some s) ∈ lines → s ≤ 255) →
      ∀ m ∈ (parse_gcode lines d).1, ∀ p, m.fan_pct = some p →
        0 ≤ p ∧ p ≤ 100) := by
  constructor
  · have h := fan_fold (filament_area_mm2 d)
      (fun s => s = 0 ∨ GLine.m106 (some s) ∈ lines) (Or.inl rfl)
      lines initState (fun s hs => Or.inr hs)
      (Or.inl rfl) (by intro m hm; simp [initState] at hm)
    exact h.2
  · intro hbound
    have h := fan_fold (filament_area_mm2 d) (fun s => s ≤ 255) (by omega)
      lines initState (fun s hs => hbound s hs)
      (Or.inl rfl) (by intro m hm; simp [initState] at hm)
    intro m hm p hp
    rcases h.2 m hm with hnone | ⟨s, hs, heq⟩
    · rw [hnone] at hp; cases hp
    · rw [heq] at hp
      rw [Option.some_inj] at hp
      subst hp
      have hsr : (s : ℝ) ≤ 255 := by exact_mod_cast hs
      have hsr0 : (0 : ℝ) ≤ (s : ℝ) := Nat.cast_nonneg s
      constructor
      · positivity
      · rw [div_mul_eq_mul_div, div_le_iff₀ (by norm_num : (0:ℝ) < 255)]
        linarith

/-- Claim C9, witness: with the in-range fan line M106 S204 the emitted move
has fan_pct 80, inside 0 to 100. -/
theorem C9_fan_witness :
    c9wM ∈ (parse_gcode [.m106 (some 204), .move .G1 []] 1.75).1 ∧
    c9wM.fan_pct = some 80 ∧ (0 : ℝ) ≤ 80 ∧ (80 : ℝ) ≤ 100 := by
  have hm : c9wM ∈ (parse_gcode [.m106 (some 204), .move .G1 []] 1.75).1 := by
    rw [c9wparse]; exact List.mem_singleton.mpr rfl
  have hbound : ∀ s : ℕ,
      GLine.m106 (some s) ∈ [GLine.m106 (some 204), GLine.move Cmd.G1 []] → s ≤ 255 := by
    intro s hs
    rcases List.mem_cons.mp hs with h | h
    · cases h; omega
    · rcases List.mem_cons.mp h with h2 | h2
      · cases h2
      · simp at h2
  have h := (C9_fan_pct_range [.m106 (some 204), .move .G1 []] 1.75).2
    hbound c9wM hm 80 rfl
  exact ⟨hm, rfl, h.1, h.2⟩

/-- Claim C10: the move sequence of any parse is positionally continuous:
the first emitted move starts at the origin, and every later move starts
where its predecessor ended. -/
theorem C10_positional_continuity (lines : List GLine) (d : ℝ) :
    (∀ m, ((parse_gcode lines d).1).head? = some m →
      m.x0 = 0 ∧ m.y0 = 0 ∧ m.z0 = 0) ∧
    List.Chain' contig (parse_gcode lines d).1 := by
  have hinit : PosInv initState := by
    refine ⟨List.chain'_nil, ?_, ?_, ?_⟩
    · intro m hm; simp [initState] at hm
    · intro _; exact ⟨rfl, rfl, rfl⟩
    · intro m hm; simp [initState] at hm
  have h := posInv_foldl (filament_area_mm2 d) lines initState hinit
  obtain ⟨hchain, _, _, hhead⟩ := h
  exact ⟨fun m hm => hhead m hm, hchain⟩

/-- Claim C10, witness: the single move of the trace G1 X10 F1200 starts at
the origin and the one-element sequence chains trivially. -/
theorem C10_continuity_witness :
    ((parse_gcode wlines 1).1).head? = some wM ∧
    (wM.x0 = 0 ∧ wM.y0 = 0 ∧ wM.z0 = 0) ∧
    List.Chain' contig (parse_gcode wlines 1).1 := by
  have hh : ((parse_gcode wlines 1).1).head? = some wM := by rw [wparse]; rfl
  exact ⟨hh, (C10_positional_continuity wlines 1).1 wM hh,
    (C10_positional_continuity wlines 1).2⟩

end GCodeProfiler
